import Mathlib

/-!
# Verification of the PDX classifier-evaluation pipeline

Shallow embedding of `src/scripts/2A.evaluate-classifier-pdx.py` — the
notebook that reconciles classifier score tables with clinical and
mutation-status tables and evaluates the Ras / TP53 classifiers.

Tables are lists of records; pandas left merges (`DataFrame.merge` with
`how='left'`) are modelled exactly: every left row is kept, an unmatched
left row yields one output row with null right fields, and a left row with
several right matches yields one output row per matching right row, in
right-table order (pandas one-to-many semantics). Missing values (NaN) are
modelled as `Option`; merge keys that are null never match (pandas does not
join NaN keys). Floating-point scores are modelled as `Rat`; the pipeline
never does arithmetic on them except in the metric computations, where
exact rationals represent the rank statistics.
-/

/-! ## Substring search

`pandas.Series.str.contains('Other')` performs a regex search; the pattern
`Other` has no metacharacters, so it is exactly case-sensitive substring
containment. -/

/-- `startsW pat s` is true when `pat` is an initial segment of `s`. -/
def startsW : List Char → List Char → Bool
  | [], _ => true
  | _ :: _, [] => false
  | c :: cs, d :: ds => c == d && startsW cs ds

/-- `hasSubL pat s` is true when `pat` occurs contiguously inside `s`. -/
def hasSubL (pat : List Char) : List Char → Bool
  | [] => pat.isEmpty
  | d :: ds => startsW pat (d :: ds) || hasSubL pat ds

/-- `hasSub s pat` : does the string `s` contain `pat` as a substring?
Embeds `clinical_df.Histology.str.contains('Other')` (source line 124). -/
def hasSub (s pat : String) : Bool :=
  hasSubL pat.toList s.toList

/-! ## Data model -/

/-- One row of the classifier score table `results/pdx_classifier_scores.tsv`
(source In[13]): columns `sample_id`, `ras_score`, `tp53_score`,
`ras_shuffle`, `tp53_shuffle`. -/
structure ScoreRow where
  sample_id : String
  ras_score : Rat
  tp53_score : Rat
  ras_shuffle : Rat
  tp53_shuffle : Rat
deriving Repr, DecidableEq

/-- One row of the clinical table after loading, with `Histology` already
normalized (source In[11]): columns `Model`, `Histology`. -/
structure ClinRow where
  Model : String
  Histology : String
deriving Repr, DecidableEq

/-- One row of the clinical table as read from disk, before histology
normalization; `Histology` may be missing (NaN), which pandas represents
as a float NaN in an object column. -/
structure RawClinRow where
  Model : String
  Histology : Option String
deriving Repr, DecidableEq

/-- One row of a mutation status table (`ras.genes.txt`, `tp53.muts.txt`,
source In[3] / In[7]): columns `Model`, `Hugo_Symbol`,
`Variant_Classification`. -/
structure StatusRow where
  Model : String
  Hugo_Symbol : String
  Variant_Classification : String
deriving Repr, DecidableEq

/-! ## Clinical histology normalization (source line 124)

`clinical_df.loc[clinical_df.Histology.str.contains('Other'), 'Histology'] = "Other"`

pandas first builds the whole boolean mask; on a NaN entry `str.contains`
yields NaN, and `.loc` with a mask containing NaN raises
(`ValueError: Cannot mask with non-boolean array containing NA / NaN values`),
so the statement fails atomically: no row is rewritten. -/

/-- Error raised by the clinical-normalization cell. -/
inductive NormError
  | histologyNA
deriving Repr, DecidableEq

/-- The per-value histology rewrite of source line 124: any histology
containing the substring `Other` collapses to the literal `"Other"`. -/
def normHist (h : String) : String :=
  if hasSub h "Other" then "Other" else h

/-- Line 124 applied to a whole (already non-null) clinical table. -/
def normTable (t : List ClinRow) : List ClinRow :=
  t.map fun r => ⟨r.Model, normHist r.Histology⟩

/-- The clinical-normalization cell on the raw table: fails if any
`Histology` entry is NaN (the `.loc` boolean mask raises), otherwise
rewrites every `Other`-containing histology to `"Other"`. -/
def normalizeClinical (t : List RawClinRow) : Except NormError (List ClinRow) :=
  if t.any (fun r => r.Histology.isNone) then
    .error .histologyNA
  else
    .ok (t.map fun r => ⟨r.Model, normHist (r.Histology.getD "")⟩)

/-! ## Reconciliation pipeline (source In[14]–In[18])

Three pandas left merges followed by status derivation. Intermediate row
shapes mirror the dataframe columns after each merge. -/

/-- Row shape after `scores_df.merge(clinical_df, how='left',
left_on='sample_id', right_on='Model')` (source line 151): the score
columns plus nullable `Model` and `Histology`. -/
structure MergedRow where
  sample_id : String
  ras_score : Rat
  tp53_score : Rat
  ras_shuffle : Rat
  tp53_shuffle : Rat
  Model : Option String
  Histology : Option String
deriving Repr, DecidableEq

/-- Row shape after the left merge with
`tp53_status_df.loc[:, ['Hugo_Symbol', 'Model']]` (source lines 166-170):
adds the nullable matched TP53 gene symbol. -/
structure MergedRow2 extends MergedRow where
  Hugo_Symbol_tp53 : Option String
deriving Repr, DecidableEq

/-- Row shape after the further left merge with
`ras_status_df.loc[:, ['Hugo_Symbol', 'Model']]` (source lines 171-175):
adds the nullable matched Ras gene symbol. -/
structure MergedRow3 extends MergedRow2 where
  Hugo_Symbol_ras : Option String
deriving Repr, DecidableEq

/-- Final reconciled row after the assignments of In[17]-In[18]: gene
display fields filled with `"wild-type"` where null, statuses in `{0,1}`. -/
structure ReconciledRow where
  sample_id : String
  ras_score : Rat
  tp53_score : Rat
  ras_shuffle : Rat
  tp53_shuffle : Rat
  Model : Option String
  Histology : Option String
  Hugo_Symbol_tp53 : String
  Hugo_Symbol_ras : String
  tp53_status : Nat
  ras_status : Nat
deriving Repr, DecidableEq

/-- `scores_df.merge(clinical_df, how='left', left_on='sample_id',
right_on='Model')` (source line 151). Each score row is kept; it is
replicated once per matching clinical row (pandas one-to-many), or kept
once with null `Model`/`Histology` when no clinical row matches. -/
def mergeClinical (scores : List ScoreRow) (clinical : List ClinRow) :
    List MergedRow :=
  scores.flatMap fun s =>
    match clinical.filter (fun c => c.Model == s.sample_id) with
    | [] => [⟨s.sample_id, s.ras_score, s.tp53_score, s.ras_shuffle,
             s.tp53_shuffle, none, none⟩]
    | ms => ms.map fun c =>
        ⟨s.sample_id, s.ras_score, s.tp53_score, s.ras_shuffle,
         s.tp53_shuffle, some c.Model, some c.Histology⟩

/-- Rows of a status table matching a (nullable) `Model` key. A null key
matches nothing: pandas never joins NaN keys. -/
def matchStatus (tbl : List StatusRow) : Option String → List StatusRow
  | none => []
  | some k => tbl.filter fun r => r.Model == k

/-- The left merge with the TP53 status table on `Model` (source lines
166-170): one output row per matching mutation row, or one row with null
`Hugo_Symbol_tp53` when there is no match. -/
def mergeTp53 (rows : List MergedRow) (tbl : List StatusRow) :
    List MergedRow2 :=
  rows.flatMap fun r =>
    match matchStatus tbl r.Model with
    | [] => [{ toMergedRow := r, Hugo_Symbol_tp53 := none }]
    | ms => ms.map fun m =>
        { toMergedRow := r, Hugo_Symbol_tp53 := some m.Hugo_Symbol }

/-- The left merge with the Ras status table on `Model` (source lines
171-175), same shape as the TP53 merge. -/
def mergeRas (rows : List MergedRow2) (tbl : List StatusRow) :
    List MergedRow3 :=
  rows.flatMap fun r =>
    match matchStatus tbl r.Model with
    | [] => [{ toMergedRow2 := r, Hugo_Symbol_ras := none }]
    | ms => ms.map fun m =>
        { toMergedRow2 := r, Hugo_Symbol_ras := some m.Hugo_Symbol }

/-- The status chain of In[17]-In[18]:
`status = Hugo_Symbol_*` (assign), then `fillna(0)`, then
`loc[status != 0] = 1`. A matched gene symbol is a string, never equal to
`0`, so it becomes `1`; NaN becomes `0`. -/
def statusOfHugo : Option String → Nat
  | none => 0
  | some _ => 1

/-- The assignments of In[17]-In[18] on one merged row: derive
`tp53_status` / `ras_status` and fill the gene display fields with
`"wild-type"` where null. -/
def deriveStatus (r : MergedRow3) : ReconciledRow :=
  { sample_id := r.sample_id
    ras_score := r.ras_score
    tp53_score := r.tp53_score
    ras_shuffle := r.ras_shuffle
    tp53_shuffle := r.tp53_shuffle
    Model := r.Model
    Histology := r.Histology
    Hugo_Symbol_tp53 := r.Hugo_Symbol_tp53.getD "wild-type"
    Hugo_Symbol_ras := r.Hugo_Symbol_ras.getD "wild-type"
    tp53_status := statusOfHugo r.Hugo_Symbol_tp53
    ras_status := statusOfHugo r.Hugo_Symbol_ras }

/-- The full reconciliation pipeline, In[14] through In[18]: clinical
merge, TP53 merge, Ras merge, status derivation. -/
def reconcile (scores : List ScoreRow) (clinical : List ClinRow)
    (tp53_tbl ras_tbl : List StatusRow) : List ReconciledRow :=
  (mergeRas (mergeTp53 (mergeClinical scores clinical) tp53_tbl) ras_tbl).map
    deriveStatus

/-! ## Raw-table view of the loaders (source In[3], In[7], In[11])

`pd.read_table` parses a TSV into a dataframe with whatever columns the
file has; it performs no column validation. A column access on a missing
column raises (`AttributeError` naming the column). `RawTable` models the
parsed dataframe: a header naming the columns and a grid of cells. -/

/-- A parsed tab-separated file: header plus cell grid. -/
structure RawTable where
  header : List String
  cells : List (List String)
deriving Repr, DecidableEq

/-- Error raised when a required column is accessed but absent. The error
carries the column name only — pandas attribute errors do not name the
originating file. -/
inductive LoadError
  | missingColumn (col : String)
deriving Repr, DecidableEq

/-- Column access on a parsed table: the embedding of
`df.<name>` / `df.loc[:, [name]]`. Fails with `missingColumn` when the
header lacks the column. -/
def getCol (t : RawTable) (name : String) : Except LoadError (List String) :=
  match t.header.findIdx? (fun c => c == name) with
  | none => .error (.missingColumn name)
  | some i => .ok (t.cells.map fun row => row.getD i "")

/-- The status-table load cells (source lines 59-60 and 89-90):
`pd.read_table(file)` alone — no column check at all, so loading always
succeeds on a parseable file. -/
def loadStatusCell (t : RawTable) : Except LoadError RawTable :=
  .ok t

/-- The first use of the `Model` column of a status table after loading
(source line 69, `ras_status_df.Model.unique()`; also the merge key of
In[16]). This, not the loader, is where a missing `Model` column fails. -/
def statusModelColumn (t : RawTable) : Except LoadError (List String) :=
  getCol t "Model"

/-- The clinical load cell (source lines 120-124): `pd.read_table`
followed immediately by the histology normalization of line 124, which
accesses `Histology` — so a clinical table without a `Histology` column
fails inside the load cell; the returned value is the normalized
histology column. -/
def loadClinicalCell (t : RawTable) : Except LoadError (List String) :=
  (getCol t "Histology").map fun col => col.map normHist

/-! ## Metric computations (source In[19])

The loop iterates over `('ras_status', 'tp53_status')` in that order,
computing `roc_curve`, `roc_auc_score`, `average_precision_score` for the
real and shuffled scores. There is no `try`/`except`: an exception in the
Ras iteration aborts the loop before the TP53 iteration runs.
`sklearn.metrics.roc_auc_score` raises `ValueError` when only one class is
present in the labels (the spec's `DegenerateInputError`). AUROC itself is
the rank statistic: the fraction of (positive, negative) pairs ranked
correctly, ties counting one half. -/

/-- Error raised by a metric computation. -/
inductive MetricError
  | degenerateInput
deriving Repr, DecidableEq

/-- `roc_auc_score(labels, scores)`: fails on a single-class label vector,
otherwise the exact Mann-Whitney rank statistic. Positive class is label
`≠ 0`, as the pipeline's statuses are `0`/`1`. -/
def aurocScore (labels : List Nat) (scores : List Rat) :
    Except MetricError Rat :=
  let pairs := labels.zip scores
  let pos := (pairs.filter fun p => p.1 != 0).map Prod.snd
  let neg := (pairs.filter fun p => p.1 == 0).map Prod.snd
  if pos.isEmpty || neg.isEmpty then
    .error .degenerateInput
  else
    let wins := (pos.map fun p =>
      (neg.map fun n =>
        if n < p then (1 : Rat) else if n == p then (1 : Rat) / 2 else 0
      ).foldl (· + ·) 0).foldl (· + ·) 0
    .ok (wins / ((pos.length : Rat) * (neg.length : Rat)))

/-- The metric results kept for one pathway (one loop iteration of In[19]):
AUROC of the real score and of the shuffled score. -/
structure PathwayMetrics where
  auroc : Rat
  auroc_shuff : Rat
deriving Repr, DecidableEq

/-- One iteration of the In[19] loop for a given pathway: AUROC for the
real score, then for the shuffled score. The first failure aborts the
iteration. -/
def evalPathway (labels : List Nat) (score shuff : List Rat) :
    Except MetricError PathwayMetrics := do
  let a ← aurocScore labels score
  let b ← aurocScore labels shuff
  return ⟨a, b⟩

/-- The whole In[19] loop: Ras first (idx 0), then TP53 (idx 1),
sequentially in one loop with no exception isolation — a failure in the
Ras iteration propagates and the TP53 iteration never runs. -/
def evalAllPathways (rows : List ReconciledRow) :
    Except MetricError (PathwayMetrics × PathwayMetrics) := do
  let rasM ← evalPathway (rows.map (·.ras_status)) (rows.map (·.ras_score))
    (rows.map (·.ras_shuffle))
  let tp53M ← evalPathway (rows.map (·.tp53_status))
    (rows.map (·.tp53_score)) (rows.map (·.tp53_shuffle))
  return (rasM, tp53M)

/-! ## Concrete sample data

Small concrete tables used by the witness and counterexample theorems. -/

/-- A score row for sample `S1`. -/
def sampleS1 : ScoreRow := ⟨"S1", 1, 0, 1, 0⟩

/-- A score row for sample `S2`. -/
def sampleS2 : ScoreRow := ⟨"S2", 0, 1, 1, 0⟩

/-- A clinical row resolving `S1` to histology `Lung`. -/
def clinS1 : ClinRow := ⟨"S1", "Lung"⟩

/-- A Ras mutation row for model `S1`, gene `KRAS`. -/
def rasKras : StatusRow := ⟨"S1", "KRAS", "Missense_Mutation"⟩

/-- A second Ras mutation row for the same model `S1`, gene `NRAS`. -/
def rasNras : StatusRow := ⟨"S1", "NRAS", "Missense_Mutation"⟩

/-- A Ras mutation row for model `S2`. -/
def rasS2 : StatusRow := ⟨"S2", "KRAS", "Missense_Mutation"⟩

/-- A Ras mutation row whose gene symbol is the literal string
`wild-type` — a degenerate but representable table entry. -/
def rasWtGene : StatusRow := ⟨"S1", "wild-type", "Missense_Mutation"⟩

/-- First of two clinical rows sharing the key `S1`. -/
def clinDupA : ClinRow := ⟨"S1", "A"⟩

/-- Second of two clinical rows sharing the key `S1`. -/
def clinDupB : ClinRow := ⟨"S1", "B"⟩

/-- A reconciled row with `ras_status = 0` and `tp53_status = 0`. -/
def degRow1 : ReconciledRow :=
  ⟨"S1", 1, 0, 1, 0, some "S1", some "Lung", "wild-type", "wild-type",
   0, 0⟩

/-- A reconciled row with `ras_status = 0` and `tp53_status = 1`. -/
def degRow2 : ReconciledRow :=
  ⟨"S2", 1, 1, 1, 1, some "S2", some "Lung", "TP53", "wild-type", 1, 0⟩

/-- A parsed status table lacking the required `Model` column. -/
def statusNoModelTbl : RawTable :=
  ⟨["Hugo_Symbol", "Variant_Classification"], [["KRAS", "Missense_Mutation"]]⟩

/-- A parsed clinical table lacking the required `Histology` column. -/
def clinNoHistologyTbl : RawTable := ⟨["Model"], [["S1"]]⟩

/-- A raw clinical row with its histology present. -/
def rawClinOk : RawClinRow := ⟨"S1", some "Other Sarcoma"⟩

/-- A raw clinical row whose histology is missing (NaN). -/
def rawClinNA : RawClinRow := ⟨"S2", none⟩

/-- The single reconciled row produced by `reconcile [sampleS1] [clinS1]
[] [rasKras]`: clinical match, one Ras match, no TP53 match. -/
def rowS1Kras : ReconciledRow :=
  ⟨"S1", 1, 0, 1, 0, some "S1", some "Lung", "wild-type", "KRAS",
   0, 1⟩

/-! ## Shared helper lemmas -/

/-- Matching against an empty status table yields no rows. -/
theorem matchStatus_nil (mo : Option String) : matchStatus [] mo = [] := by
  cases mo <;> rfl

/-- A status row selected by `matchStatus` belongs to the table and fixes
the key. -/
theorem mem_matchStatus {m : StatusRow} {tbl : List StatusRow}
    {mo : Option String} (h : m ∈ matchStatus tbl mo) :
    m ∈ tbl ∧ mo = some m.Model := by
  cases mo with
  | none => simp [matchStatus] at h
  | some k =>
    simp only [matchStatus, List.mem_filter, beq_iff_eq] at h
    exact ⟨h.1, by rw [h.2]⟩

/-- `matchStatus` is nonempty exactly when the key is non-null and occurs
in the table. -/
theorem matchStatus_ne_nil_iff (tbl : List StatusRow) (mo : Option String) :
    matchStatus tbl mo ≠ [] ↔ ∃ k, mo = some k ∧ ∃ m ∈ tbl, m.Model = k := by
  cases mo with
  | none =>
    simp [matchStatus]
  | some k =>
    simp only [matchStatus, ne_eq, List.filter_eq_nil_iff, beq_iff_eq,
      not_forall, Option.some.injEq]
    constructor
    · rintro ⟨m, hm, hmod⟩
      exact ⟨k, rfl, m, hm, by simpa using hmod⟩
    · rintro ⟨k', hk', m, hm, hmod⟩
      exact ⟨m, hm, by simp [hmod, hk']⟩

/-- Membership in the clinical merge: every output row carries the score
fields of some input score row unchanged. -/
theorem mem_mergeClinical {q : MergedRow} {scores : List ScoreRow}
    {clin : List ClinRow} (hq : q ∈ mergeClinical scores clin) :
    ∃ s ∈ scores, q.sample_id = s.sample_id ∧ q.ras_score = s.ras_score ∧
      q.tp53_score = s.tp53_score ∧ q.ras_shuffle = s.ras_shuffle ∧
      q.tp53_shuffle = s.tp53_shuffle := by
  simp only [mergeClinical, List.mem_flatMap] at hq
  obtain ⟨s, hs, hmem⟩ := hq
  refine ⟨s, hs, ?_⟩
  rcases hfil : clin.filter (fun c => c.Model == s.sample_id) with _ | ⟨c, cs⟩
  · rw [hfil] at hmem
    simp only [List.mem_singleton] at hmem
    subst hmem
    exact ⟨rfl, rfl, rfl, rfl, rfl⟩
  · rw [hfil] at hmem
    simp only [List.mem_map] at hmem
    obtain ⟨c', _, hc'⟩ := hmem
    subst hc'
    exact ⟨rfl, rfl, rfl, rfl, rfl⟩

/-- Membership in the TP53 merge: the parent row is an input row and the
matched gene field reflects `matchStatus` on that row's key. -/
theorem mem_mergeTp53 {q : MergedRow2} {rows : List MergedRow}
    {tbl : List StatusRow} (hq : q ∈ mergeTp53 rows tbl) :
    q.toMergedRow ∈ rows ∧
      (q.Hugo_Symbol_tp53 = none ∧ matchStatus tbl q.Model = [] ∨
        ∃ m ∈ matchStatus tbl q.Model,
          q.Hugo_Symbol_tp53 = some m.Hugo_Symbol) := by
  simp only [mergeTp53, List.mem_flatMap] at hq
  obtain ⟨r, hr, hmem⟩ := hq
  rcases hfil : matchStatus tbl r.Model with _ | ⟨m, ms⟩
  · rw [hfil] at hmem
    simp only [List.mem_singleton] at hmem
    subst hmem
    exact ⟨hr, Or.inl ⟨rfl, hfil⟩⟩
  · rw [hfil] at hmem
    simp only [List.mem_map] at hmem
    obtain ⟨m', hm', hq'⟩ := hmem
    subst hq'
    exact ⟨hr, Or.inr ⟨m', hfil ▸ hm', rfl⟩⟩

/-- Membership in the Ras merge: the parent row is an input row and the
matched gene field reflects `matchStatus` on that row's key. -/
theorem mem_mergeRas {q : MergedRow3} {rows : List MergedRow2}
    {tbl : List StatusRow} (hq : q ∈ mergeRas rows tbl) :
    q.toMergedRow2 ∈ rows ∧
      (q.Hugo_Symbol_ras = none ∧ matchStatus tbl q.Model = [] ∨
        ∃ m ∈ matchStatus tbl q.Model,
          q.Hugo_Symbol_ras = some m.Hugo_Symbol) := by
  simp only [mergeRas, List.mem_flatMap] at hq
  obtain ⟨r, hr, hmem⟩ := hq
  rcases hfil : matchStatus tbl r.Model with _ | ⟨m, ms⟩
  · rw [hfil] at hmem
    simp only [List.mem_singleton] at hmem
    subst hmem
    exact ⟨hr, Or.inl ⟨rfl, hfil⟩⟩
  · rw [hfil] at hmem
    simp only [List.mem_map] at hmem
    obtain ⟨m', hm', hq'⟩ := hmem
    subst hq'
    exact ⟨hr, Or.inr ⟨m', hfil ▸ hm', rfl⟩⟩

/-- The clinical merge distributes over appending of score tables. -/
theorem mergeClinical_append (a b : List ScoreRow) (clin : List ClinRow) :
    mergeClinical (a ++ b) clin = mergeClinical a clin ++ mergeClinical b clin := by
  simp only [mergeClinical, List.flatMap_append]

/-- The TP53 merge distributes over appending of merged-row lists. -/
theorem mergeTp53_append (a b : List MergedRow) (tbl : List StatusRow) :
    mergeTp53 (a ++ b) tbl = mergeTp53 a tbl ++ mergeTp53 b tbl := by
  simp only [mergeTp53, List.flatMap_append]

/-- The Ras merge distributes over appending of merged-row lists. -/
theorem mergeRas_append (a b : List MergedRow2) (tbl : List StatusRow) :
    mergeRas (a ++ b) tbl = mergeRas a tbl ++ mergeRas b tbl := by
  simp only [mergeRas, List.flatMap_append]

/-- The whole reconciliation pipeline distributes over appending of score
tables: pandas merges process left rows independently, in order. -/
theorem reconcile_append (a b : List ScoreRow) (clin : List ClinRow)
    (tp53_tbl ras_tbl : List StatusRow) :
    reconcile (a ++ b) clin tp53_tbl ras_tbl =
      reconcile a clin tp53_tbl ras_tbl ++ reconcile b clin tp53_tbl ras_tbl := by
  simp only [reconcile, mergeClinical_append, mergeTp53_append,
    mergeRas_append, List.map_append]

/-- Splitting off the head score row of the pipeline. -/
theorem reconcile_cons (s : ScoreRow) (rest : List ScoreRow)
    (clin : List ClinRow) (tp53_tbl ras_tbl : List StatusRow) :
    reconcile (s :: rest) clin tp53_tbl ras_tbl =
      reconcile [s] clin tp53_tbl ras_tbl ++
        reconcile rest clin tp53_tbl ras_tbl := by
  have h : s :: rest = [s] ++ rest := rfl
  rw [h, reconcile_append]

/-- A score row with no clinical match reconciles to exactly one row:
null `Model` and `Histology`, both statuses `0`, both gene fields
`"wild-type"`, scores copied. -/
theorem reconcile_unmatched (s : ScoreRow) (clin : List ClinRow)
    (tp53_tbl ras_tbl : List StatusRow)
    (h : clin.filter (fun c => c.Model == s.sample_id) = []) :
    reconcile [s] clin tp53_tbl ras_tbl =
      [⟨s.sample_id, s.ras_score, s.tp53_score, s.ras_shuffle,
        s.tp53_shuffle, none, none, "wild-type", "wild-type", 0, 0⟩] := by
  simp [reconcile, mergeClinical, h, mergeTp53, mergeRas, matchStatus,
    deriveStatus, statusOfHugo]

/-- A list whose keys are distinct has at most one element per key. -/
theorem filter_key_len_le_one {α : Type} (f : α → String) (l : List α)
    (h : (l.map f).Nodup) (k : String) :
    (l.filter fun x => f x == k).length ≤ 1 := by
  induction l with
  | nil => simp
  | cons x xs ih =>
    simp only [List.map_cons, List.nodup_cons] at h
    by_cases hk : (f x == k) = true
    · have hxs : xs.filter (fun y => f y == k) = [] := by
        rw [List.filter_eq_nil_iff]
        intro a ha hak
        exact absurd (List.mem_map.mpr
          ⟨a, ha, by rw [eq_of_beq hak, ← eq_of_beq hk]⟩) h.1
      simp [List.filter_cons, hk, hxs]
    · simp only [List.filter_cons, hk, if_false]
      exact ih h.2

/-- With clinical keys at most once per key, the clinical merge keeps the
score rows one-to-one and in order. -/
theorem mergeClinical_map_sample_id (clin : List ClinRow)
    (h : ∀ k, (clin.filter fun c => c.Model == k).length ≤ 1) :
    ∀ scores : List ScoreRow,
      (mergeClinical scores clin).map (·.sample_id) =
        scores.map (·.sample_id) := by
  intro scores
  induction scores with
  | nil => rfl
  | cons s rest ih =>
    have hstep : mergeClinical (s :: rest) clin =
        mergeClinical [s] clin ++ mergeClinical rest clin :=
      mergeClinical_append [s] rest clin
    rw [hstep, List.map_append, ih, List.map_cons]
    have hhead : (mergeClinical [s] clin).map (·.sample_id) =
        [s.sample_id] := by
      rcases hfil : clin.filter (fun c => c.Model == s.sample_id)
        with _ | ⟨c, cs⟩
      · simp [mergeClinical, hfil]
      · have hlen := h s.sample_id
        rw [hfil] at hlen
        have hcs : cs = [] := by
          cases cs with
          | nil => rfl
          | cons a b => simp at hlen
        subst hcs
        simp [mergeClinical, hfil]
    rw [hhead]
    rfl

/-- With TP53 keys at most once per key, the TP53 merge keeps rows
one-to-one and in order. -/
theorem mergeTp53_map_sample_id (tbl : List StatusRow)
    (h : ∀ k, (tbl.filter fun r => r.Model == k).length ≤ 1) :
    ∀ rows : List MergedRow,
      (mergeTp53 rows tbl).map (·.sample_id) = rows.map (·.sample_id) := by
  intro rows
  induction rows with
  | nil => rfl
  | cons r rest ih =>
    have hstep : mergeTp53 (r :: rest) tbl =
        mergeTp53 [r] tbl ++ mergeTp53 rest tbl :=
      mergeTp53_append [r] rest tbl
    rw [hstep, List.map_append, ih, List.map_cons]
    have hmlen : (matchStatus tbl r.Model).length ≤ 1 := by
      cases hmo : r.Model with
      | none => simp [matchStatus]
      | some k => simpa [matchStatus] using h k
    have hhead : (mergeTp53 [r] tbl).map (·.sample_id) = [r.sample_id] := by
      rcases hfil : matchStatus tbl r.Model with _ | ⟨m, ms⟩
      · simp [mergeTp53, hfil]
      · rw [hfil] at hmlen
        have hms : ms = [] := by
          cases ms with
          | nil => rfl
          | cons a b => simp at hmlen
        subst hms
        simp [mergeTp53, hfil]
    rw [hhead]
    rfl

/-- With Ras keys at most once per key, the Ras merge keeps rows
one-to-one and in order. -/
theorem mergeRas_map_sample_id (tbl : List StatusRow)
    (h : ∀ k, (tbl.filter fun r => r.Model == k).length ≤ 1) :
    ∀ rows : List MergedRow2,
      (mergeRas rows tbl).map (·.sample_id) = rows.map (·.sample_id) := by
  intro rows
  induction rows with
  | nil => rfl
  | cons r rest ih =>
    have hstep : mergeRas (r :: rest) tbl =
        mergeRas [r] tbl ++ mergeRas rest tbl :=
      mergeRas_append [r] rest tbl
    rw [hstep, List.map_append, ih, List.map_cons]
    have hmlen : (matchStatus tbl r.Model).length ≤ 1 := by
      cases hmo : r.Model with
      | none => simp [matchStatus]
      | some k => simpa [matchStatus] using h k
    have hhead : (mergeRas [r] tbl).map (·.sample_id) = [r.sample_id] := by
      rcases hfil : matchStatus tbl r.Model with _ | ⟨m, ms⟩
      · simp [mergeRas, hfil]
      · rw [hfil] at hmlen
        have hms : ms = [] := by
          cases ms with
          | nil => rfl
          | cons a b => simp at hmlen
        subst hms
        simp [mergeRas, hfil]
    rw [hhead]
    rfl

/-- Merging against an empty TP53 table adds a null gene field to every
row, one-to-one. -/
theorem mergeTp53_nil_tbl (rows : List MergedRow) :
    mergeTp53 rows [] =
      rows.map fun r => { toMergedRow := r, Hugo_Symbol_tp53 := none } := by
  induction rows with
  | nil => rfl
  | cons r rest ih =>
    have hstep : mergeTp53 (r :: rest) [] =
        mergeTp53 [r] [] ++ mergeTp53 rest [] := mergeTp53_append [r] rest []
    rw [hstep, ih]
    have hhead : mergeTp53 [r] [] =
        [{ toMergedRow := r, Hugo_Symbol_tp53 := none }] := by
      simp [mergeTp53, matchStatus_nil]
    rw [hhead]
    rfl

/-- Merging against an empty Ras table adds a null gene field to every
row, one-to-one. -/
theorem mergeRas_nil_tbl (rows : List MergedRow2) :
    mergeRas rows [] =
      rows.map fun r => { toMergedRow2 := r, Hugo_Symbol_ras := none } := by
  induction rows with
  | nil => rfl
  | cons r rest ih =>
    have hstep : mergeRas (r :: rest) [] =
        mergeRas [r] [] ++ mergeRas rest [] := mergeRas_append [r] rest []
    rw [hstep, ih]
    have hhead : mergeRas [r] [] =
        [{ toMergedRow2 := r, Hugo_Symbol_ras := none }] := by
      simp [mergeRas, matchStatus_nil]
    rw [hhead]
    rfl

/-- Accessing a column absent from the header fails, naming that column. -/
theorem getCol_missing (t : RawTable) (name : String)
    (h : name ∉ t.header) :
    getCol t name = .error (.missingColumn name) := by
  have hidx : t.header.findIdx? (fun c => c == name) = none := by
    rw [List.findIdx?_eq_none_iff]
    intro x hx
    exact beq_eq_false_iff_ne.mpr fun he => h (he ▸ hx)
  simp [getCol, hidx]

/-- The histology rewrite of line 124 is idempotent on a single value. -/
theorem normHist_idem (s : String) : normHist (normHist s) = normHist s := by
  by_cases h : hasSub s "Other" = true
  · have hO : hasSub "Other" "Other" = true := by decide
    simp [normHist, h, hO]
  · simp [normHist, h]

/-! ## Claim theorems -/

/-- C5: histology normalization maps every string containing the
substring `"Other"` (case-sensitive) to exactly `"Other"`, leaves every
other string unchanged, and applying the table-level normalization twice
yields the same table as applying it once. -/
theorem c5_histology_normalization :
    (∀ s : String, hasSub s "Other" = true → normHist s = "Other") ∧
    (∀ s : String, hasSub s "Other" = false → normHist s = s) ∧
    (∀ t : List ClinRow, normTable (normTable t) = normTable t) := by
  refine ⟨fun s h => by simp [normHist, h], fun s h => by simp [normHist, h],
    fun t => ?_⟩
  unfold normTable
  rw [List.map_map]
  apply List.map_congr_left
  intro r _
  simp [Function.comp, normHist_idem]

/-- Witness for C5 at concrete inputs. -/
theorem c5_histology_normalization_witness :
    (hasSub "Other Sarcoma" "Other" = true ∧
      normHist "Other Sarcoma" = "Other") ∧
    (hasSub "Lung" "Other" = false ∧ normHist "Lung" = "Lung") ∧
    normTable (normTable [⟨"M1", "Other Sarcoma"⟩, ⟨"M2", "Lung"⟩]) =
      normTable [⟨"M1", "Other Sarcoma"⟩, ⟨"M2", "Lung"⟩] :=
  ⟨⟨by decide, c5_histology_normalization.1 _ (by decide)⟩,
   ⟨by decide, c5_histology_normalization.2.1 _ (by decide)⟩,
   c5_histology_normalization.2.2 _⟩

/-- C9: the histology normalization of the clinical loader is only
defined when every row's `Histology` is present — a clinical table
containing a missing (NaN) `Histology` makes the normalization step fail
(the boolean mask raises) rather than leaving the row unchanged. -/
theorem c9_null_histology_fails (t : List RawClinRow)
    (h : (t.any fun r => r.Histology.isNone) = true) :
    normalizeClinical t = .error .histologyNA := by
  simp [normalizeClinical, h]

/-- Witness for C9: a two-row table whose second histology is missing. -/
theorem c9_null_histology_fails_witness :
    (([rawClinOk, rawClinNA].any fun r => r.Histology.isNone) = true) ∧
    normalizeClinical [rawClinOk, rawClinNA] = .error .histologyNA :=
  ⟨by decide, c9_null_histology_fails _ (by decide)⟩

/-- C8 counterexample: the status-table loader does not fail on a table
lacking the required `Model` column — `pd.read_table` performs no column
validation, so the load succeeds and the failure only happens at the
first later access of the column. -/
theorem c8_loader_counterexample :
    loadStatusCell statusNoModelTbl = .ok statusNoModelTbl ∧
    statusModelColumn statusNoModelTbl =
      .error (.missingColumn "Model") := by
  constructor
  · rfl
  · rfl

/-- C8 amended: the loaders perform no column validation; a missing
required column causes a failure at the first access of that column — for
the clinical table a missing `Histology` fails inside the load cell
itself (the normalization mask of line 124), while a status table lacking
`Model` loads successfully and fails only at the first downstream use.
The error names the missing column only, not the file path. -/
theorem c8_missing_column_behavior (t u : RawTable)
    (ht : "Model" ∉ t.header) (hu : "Histology" ∉ u.header) :
    loadStatusCell t = .ok t ∧
    statusModelColumn t = .error (.missingColumn "Model") ∧
    loadClinicalCell u = .error (.missingColumn "Histology") := by
  refine ⟨rfl, getCol_missing t "Model" ht, ?_⟩
  unfold loadClinicalCell
  rw [getCol_missing u "Histology" hu]
  rfl

/-- Witness for C8 amended at the concrete malformed tables. -/
theorem c8_missing_column_behavior_witness :
    ("Model" ∉ statusNoModelTbl.header ∧
      "Histology" ∉ clinNoHistologyTbl.header) ∧
    loadStatusCell statusNoModelTbl = .ok statusNoModelTbl ∧
    statusModelColumn statusNoModelTbl = .error (.missingColumn "Model") ∧
    loadClinicalCell clinNoHistologyTbl =
      .error (.missingColumn "Histology") :=
  ⟨⟨by decide, by decide⟩,
   c8_missing_column_behavior statusNoModelTbl clinNoHistologyTbl
     (by decide) (by decide)⟩

/-- C4: a score row whose `sample_id` has no match in the clinical table
reconciles, wherever it sits in the score table, to exactly one output
row with null `Model`, null `Histology`, both statuses `0` and both gene
fields `"wild-type"` — regardless of the contents of the mutation tables,
since the null `Model` key can never match a mutation record. -/
theorem c4_unmatched_sample_defaults (pre post : List ScoreRow)
    (s : ScoreRow) (clin : List ClinRow) (tp53_tbl ras_tbl : List StatusRow)
    (h : clin.filter (fun c => c.Model == s.sample_id) = []) :
    reconcile (pre ++ s :: post) clin tp53_tbl ras_tbl =
      reconcile pre clin tp53_tbl ras_tbl ++
        ⟨s.sample_id, s.ras_score, s.tp53_score, s.ras_shuffle,
         s.tp53_shuffle, none, none, "wild-type", "wild-type", 0, 0⟩ ::
          reconcile post clin tp53_tbl ras_tbl := by
  rw [reconcile_append, reconcile_cons,
    reconcile_unmatched s clin tp53_tbl ras_tbl h]
  rfl

/-- Witness for C4: sample `S2` is absent from the clinical table but
present in the Ras mutation table; it still gets status `0`. -/
theorem c4_unmatched_sample_defaults_witness :
    ([clinS1].filter (fun c => c.Model == sampleS2.sample_id) = []) ∧
    reconcile ([] ++ sampleS2 :: []) [clinS1] [] [rasS2] =
      reconcile [] [clinS1] [] [rasS2] ++
        ⟨sampleS2.sample_id, sampleS2.ras_score, sampleS2.tp53_score,
         sampleS2.ras_shuffle, sampleS2.tp53_shuffle, none, none,
         "wild-type", "wild-type", 0, 0⟩ ::
          reconcile [] [clinS1] [] [rasS2] :=
  ⟨by decide,
   c4_unmatched_sample_defaults [] [] sampleS2 [clinS1] [] [rasS2]
     (by decide)⟩

/-- C1 counterexample: with one score row whose matched model has two Ras
mutation rows, the pipeline emits two output rows — the pandas left merge
duplicates the score row, so `len(output) = len(scores)` fails. -/
theorem c1_row_count_counterexample :
    (reconcile [sampleS1] [clinS1] [] [rasKras, rasNras]).length ≠
      ([sampleS1] : List ScoreRow).length := by
  decide

/-- C1 amended: row-count invariance holds when the clinical table and
both mutation tables have no duplicated `Model` key — then the output
sample identifiers are exactly the input ones, in order (so the count is
invariant and each `sample_id` occurs as often as in the input). In
general a duplicated key multiplies rows instead. -/
theorem c1_row_count_unique_keys (scores : List ScoreRow)
    (clinical : List ClinRow) (tp53_tbl ras_tbl : List StatusRow)
    (hc : (clinical.map (·.Model)).Nodup)
    (ht : (tp53_tbl.map (·.Model)).Nodup)
    (hr : (ras_tbl.map (·.Model)).Nodup) :
    (reconcile scores clinical tp53_tbl ras_tbl).map (·.sample_id) =
      scores.map (·.sample_id) := by
  have hc1 := filter_key_len_le_one (·.Model) clinical hc
  have ht1 := filter_key_len_le_one (·.Model) tp53_tbl ht
  have hr1 := filter_key_len_le_one (·.Model) ras_tbl hr
  unfold reconcile
  rw [List.map_map]
  have hderive :
      (mergeRas (mergeTp53 (mergeClinical scores clinical) tp53_tbl)
        ras_tbl).map ((·.sample_id) ∘ deriveStatus) =
      (mergeRas (mergeTp53 (mergeClinical scores clinical) tp53_tbl)
        ras_tbl).map (·.sample_id) := rfl
  rw [hderive, mergeRas_map_sample_id ras_tbl hr1,
    mergeTp53_map_sample_id tp53_tbl ht1,
    mergeClinical_map_sample_id clinical hc1]

/-- Witness for C1 amended: unique keys everywhere, one score row in and
one reconciled row out. -/
theorem c1_row_count_unique_keys_witness :
    (([clinS1].map (·.Model)).Nodup ∧
      (([] : List StatusRow).map (·.Model)).Nodup ∧
      ([rasKras].map (·.Model)).Nodup) ∧
    (reconcile [sampleS1] [clinS1] [] [rasKras]).map (·.sample_id) =
      [sampleS1].map (·.sample_id) :=
  ⟨⟨by decide, by decide, by decide⟩,
   c1_row_count_unique_keys [sampleS1] [clinS1] [] [rasKras]
     (by decide) (by decide) (by decide)⟩

/-- C2 counterexample: when model `S1` has two Ras mutation rows (`KRAS`
then `NRAS`), the join does not keep only the first match — the second
matching mutation row produces its own additional output row carrying
`NRAS`. -/
theorem c2_first_match_counterexample :
    (reconcile [sampleS1] [clinS1] [] [rasKras, rasNras]).map
        (·.Hugo_Symbol_ras) = ["KRAS", "NRAS"] ∧
    (reconcile [sampleS1] [clinS1] [] [rasKras, rasNras]).map
        (·.Hugo_Symbol_ras) ≠ ["KRAS"] := by
  constructor
  · decide
  · decide

/-- C2 amended: the mutation join uses all-match semantics, not
first-match — every matching mutation row yields its own output row, the
gene fields listing all matching genes in status-file order, and every
such row has `ras_status = 1`. -/
theorem c2_all_matches_emitted (s : ScoreRow) (c : ClinRow)
    (tp53_tbl ras_tbl : List StatusRow)
    (hc : c.Model = s.sample_id)
    (ht : tp53_tbl.filter (fun r => r.Model == c.Model) = [])
    (hr : ras_tbl.filter (fun r => r.Model == c.Model) ≠ []) :
    (reconcile [s] [c] tp53_tbl ras_tbl).map (·.Hugo_Symbol_ras) =
      (ras_tbl.filter (fun r => r.Model == c.Model)).map (·.Hugo_Symbol) ∧
    ∀ r ∈ reconcile [s] [c] tp53_tbl ras_tbl, r.ras_status = 1 := by
  have hrec : reconcile [s] [c] tp53_tbl ras_tbl =
      (ras_tbl.filter (fun r => r.Model == c.Model)).map fun m =>
        ⟨s.sample_id, s.ras_score, s.tp53_score, s.ras_shuffle,
         s.tp53_shuffle, some c.Model, some c.Histology, "wild-type",
         m.Hugo_Symbol, 0, 1⟩ := by
    rcases hm : ras_tbl.filter (fun r => r.Model == c.Model)
      with _ | ⟨m, ms⟩
    · exact absurd hm hr
    · have ht' : tp53_tbl.filter (fun r => r.Model == s.sample_id) = [] := by
        rw [← hc]; exact ht
      have hm' : ras_tbl.filter (fun r => r.Model == s.sample_id) =
          m :: ms := by
        rw [← hc]; exact hm
      simp [reconcile, mergeClinical, hc, mergeTp53, matchStatus, ht',
        mergeRas, hm', deriveStatus, statusOfHugo, List.map_map]
  constructor
  · rw [hrec, List.map_map]
    rfl
  · intro r hmem
    rw [hrec] at hmem
    simp only [List.mem_map] at hmem
    obtain ⟨m, -, rfl⟩ := hmem
    rfl

/-- Witness for C2 amended: two Ras rows for the matched model, two
output rows, both with status `1`. -/
theorem c2_all_matches_emitted_witness :
    (clinS1.Model = sampleS1.sample_id ∧
      ([] : List StatusRow).filter (fun r => r.Model == clinS1.Model) = [] ∧
      [rasKras, rasNras].filter (fun r => r.Model == clinS1.Model) ≠ []) ∧
    (reconcile [sampleS1] [clinS1] [] [rasKras, rasNras]).map
        (·.Hugo_Symbol_ras) =
      ([rasKras, rasNras].filter (fun r => r.Model == clinS1.Model)).map
        (·.Hugo_Symbol) ∧
    ∀ r ∈ reconcile [sampleS1] [clinS1] [] [rasKras, rasNras],
      r.ras_status = 1 :=
  ⟨⟨by decide, by decide, by decide⟩,
   (c2_all_matches_emitted sampleS1 clinS1 [] [rasKras, rasNras]
      (by decide) (by decide) (by decide)).1,
   (c2_all_matches_emitted sampleS1 clinS1 [] [rasKras, rasNras]
      (by decide) (by decide) (by decide)).2⟩

/-- C6 counterexample: two clinical rows sharing `Model = "S1"` do not
overwrite each other — the left merge duplicates the score row, one
output row per clinical row, with histologies `A` then `B`. -/
theorem c6_duplicate_clinical_counterexample :
    (reconcile [sampleS1] [clinDupA, clinDupB] [] []).map (·.Histology) =
      [some "A", some "B"] ∧
    (reconcile [sampleS1] [clinDupA, clinDupB] [] []).length ≠
      ([sampleS1] : List ScoreRow).length := by
  constructor
  · decide
  · decide

/-- C6 amended: duplicate clinical keys are not collapsed — the left
merge emits one output row per matching clinical row in clinical-file
order (every matching record contributes its histology), and a single
null-histology row when nothing matches. -/
theorem c6_duplicate_clinical_all_contribute (s : ScoreRow)
    (clinical : List ClinRow) :
    (reconcile [s] clinical [] []).map (·.Histology) =
      match clinical.filter (fun c => c.Model == s.sample_id) with
      | [] => [none]
      | ms => ms.map fun c => some c.Histology := by
  rcases hfil : clinical.filter (fun c => c.Model == s.sample_id)
    with _ | ⟨c, cs⟩
  · rw [reconcile_unmatched s clinical [] [] hfil, hfil]
    rfl
  · have hclin : mergeClinical [s] clinical =
        (c :: cs).map fun c' =>
          ⟨s.sample_id, s.ras_score, s.tp53_score, s.ras_shuffle,
           s.tp53_shuffle, some c'.Model, some c'.Histology⟩ := by
      simp [mergeClinical, hfil]
    rw [reconcile, hclin, mergeTp53_nil_tbl, mergeRas_nil_tbl,
      List.map_map, List.map_map, List.map_map, List.map_map, hfil]
    exact List.map_congr_left fun a _ => rfl

/-- C3 counterexample: if the Ras status table itself lists the gene
symbol `"wild-type"` for a matched model, the reconciled row's display
gene field equals `"wild-type"` even though a mutation match was found
(`ras_status = 1`) — so the display field does not equal `"wild-type"`
exactly when no match was found. -/
theorem c3_status_gene_counterexample :
    (reconcile [sampleS1] [clinS1] [] [rasWtGene]).map
        (fun r => (r.Hugo_Symbol_ras, r.ras_status)) =
      [("wild-type", 1)] := by
  decide

/-- C3 amended: for every reconciled row, `ras_status = 1` iff the row's
resolved `Model` is non-null and appears in at least one Ras mutation
row (else `0`); the display gene field is `"wild-type"` whenever the
status is `0`, and is the gene symbol of a matching mutation row whenever
the status is `1` (which coincides with the literal `"wild-type"` only if
the table itself lists that symbol). Symmetrically for TP53. -/
theorem c3_status_iff_match (scores : List ScoreRow)
    (clinical : List ClinRow) (tp53_tbl ras_tbl : List StatusRow)
    (r : ReconciledRow)
    (hmem : r ∈ reconcile scores clinical tp53_tbl ras_tbl) :
    (r.ras_status = 1 ↔
      ∃ k, r.Model = some k ∧ ∃ m ∈ ras_tbl, m.Model = k) ∧
    (r.ras_status = 0 ∨ r.ras_status = 1) ∧
    (r.ras_status = 0 → r.Hugo_Symbol_ras = "wild-type") ∧
    (r.ras_status = 1 →
      ∃ m ∈ ras_tbl, r.Model = some m.Model ∧
        r.Hugo_Symbol_ras = m.Hugo_Symbol) ∧
    (r.tp53_status = 1 ↔
      ∃ k, r.Model = some k ∧ ∃ m ∈ tp53_tbl, m.Model = k) ∧
    (r.tp53_status = 0 ∨ r.tp53_status = 1) ∧
    (r.tp53_status = 0 → r.Hugo_Symbol_tp53 = "wild-type") ∧
    (r.tp53_status = 1 →
      ∃ m ∈ tp53_tbl, r.Model = some m.Model ∧
        r.Hugo_Symbol_tp53 = m.Hugo_Symbol) := by
  simp only [reconcile, List.mem_map] at hmem
  obtain ⟨q, hq, rfl⟩ := hmem
  obtain ⟨hq2, hras⟩ := mem_mergeRas hq
  obtain ⟨hq1, htp⟩ := mem_mergeTp53 hq2
  constructor
  · -- ras status iff
    rcases hras with ⟨hnone, hmt⟩ | ⟨m, hm, hsome⟩
    · constructor
      · intro h1
        have : statusOfHugo q.Hugo_Symbol_ras = 1 := h1
        rw [hnone] at this
        simp [statusOfHugo] at this
      · rintro ⟨k, hk, m, hmtbl, hmk⟩
        exact absurd hmt
          ((matchStatus_ne_nil_iff ras_tbl q.Model).mpr ⟨k, hk, m, hmtbl, hmk⟩)
    · obtain ⟨hmtbl, hmod⟩ := mem_matchStatus hm
      constructor
      · intro _
        exact ⟨m.Model, hmod, m, hmtbl, rfl⟩
      · intro _
        show statusOfHugo q.Hugo_Symbol_ras = 1
        rw [hsome]
        rfl
  refine ⟨?_, ?_, ?_, ?_, ?_, ?_, ?_⟩
  · -- ras status boolean
    rcases hras with ⟨hnone, -⟩ | ⟨m, -, hsome⟩
    · left
      show statusOfHugo q.Hugo_Symbol_ras = 0
      rw [hnone]; rfl
    · right
      show statusOfHugo q.Hugo_Symbol_ras = 1
      rw [hsome]; rfl
  · -- ras status 0 gives wild-type
    intro h0
    rcases hras with ⟨hnone, -⟩ | ⟨m, -, hsome⟩
    · show q.Hugo_Symbol_ras.getD "wild-type" = "wild-type"
      rw [hnone]; rfl
    · have : statusOfHugo q.Hugo_Symbol_ras = 0 := h0
      rw [hsome] at this
      simp [statusOfHugo] at this
  · -- ras status 1 gives a matched gene
    intro h1
    rcases hras with ⟨hnone, -⟩ | ⟨m, hm, hsome⟩
    · have : statusOfHugo q.Hugo_Symbol_ras = 1 := h1
      rw [hnone] at this
      simp [statusOfHugo] at this
    · obtain ⟨hmtbl, hmod⟩ := mem_matchStatus hm
      refine ⟨m, hmtbl, hmod, ?_⟩
      show q.Hugo_Symbol_ras.getD "wild-type" = m.Hugo_Symbol
      rw [hsome]; rfl
  · -- tp53 status iff
    rcases htp with ⟨hnone, hmt⟩ | ⟨m, hm, hsome⟩
    · constructor
      · intro h1
        have : statusOfHugo q.Hugo_Symbol_tp53 = 1 := h1
        rw [hnone] at this
        simp [statusOfHugo] at this
      · rintro ⟨k, hk, m, hmtbl, hmk⟩
        exact absurd hmt
          ((matchStatus_ne_nil_iff tp53_tbl q.Model).mpr
            ⟨k, hk, m, hmtbl, hmk⟩)
    · obtain ⟨hmtbl, hmod⟩ := mem_matchStatus hm
      constructor
      · intro _
        exact ⟨m.Model, hmod, m, hmtbl, rfl⟩
      · intro _
        show statusOfHugo q.Hugo_Symbol_tp53 = 1
        rw [hsome]
        rfl
  · -- tp53 status boolean
    rcases htp with ⟨hnone, -⟩ | ⟨m, -, hsome⟩
    · left
      show statusOfHugo q.Hugo_Symbol_tp53 = 0
      rw [hnone]; rfl
    · right
      show statusOfHugo q.Hugo_Symbol_tp53 = 1
      rw [hsome]; rfl
  · -- tp53 status 0 gives wild-type
    intro h0
    rcases htp with ⟨hnone, -⟩ | ⟨m, -, hsome⟩
    · show q.Hugo_Symbol_tp53.getD "wild-type" = "wild-type"
      rw [hnone]; rfl
    · have : statusOfHugo q.Hugo_Symbol_tp53 = 0 := h0
      rw [hsome] at this
      simp [statusOfHugo] at this
  · -- tp53 status 1 gives a matched gene
    intro h1
    rcases htp with ⟨hnone, -⟩ | ⟨m, hm, hsome⟩
    · have : statusOfHugo q.Hugo_Symbol_tp53 = 1 := h1
      rw [hnone] at this
      simp [statusOfHugo] at this
    · obtain ⟨hmtbl, hmod⟩ := mem_matchStatus hm
      refine ⟨m, hmtbl, hmod, ?_⟩
      show q.Hugo_Symbol_tp53.getD "wild-type" = m.Hugo_Symbol
      rw [hsome]; rfl

/-- Witness for C3 amended at the single reconciled row of a one-sample,
one-Ras-match dataset. -/
theorem c3_status_iff_match_witness :
    rowS1Kras ∈ reconcile [sampleS1] [clinS1] [] [rasKras] ∧
    ((rowS1Kras.ras_status = 1 ↔
      ∃ k, rowS1Kras.Model = some k ∧ ∃ m ∈ [rasKras], m.Model = k) ∧
    (rowS1Kras.ras_status = 0 ∨ rowS1Kras.ras_status = 1) ∧
    (rowS1Kras.ras_status = 0 → rowS1Kras.Hugo_Symbol_ras = "wild-type") ∧
    (rowS1Kras.ras_status = 1 →
      ∃ m ∈ [rasKras], rowS1Kras.Model = some m.Model ∧
        rowS1Kras.Hugo_Symbol_ras = m.Hugo_Symbol) ∧
    (rowS1Kras.tp53_status = 1 ↔
      ∃ k, rowS1Kras.Model = some k ∧
        ∃ m ∈ ([] : List StatusRow), m.Model = k) ∧
    (rowS1Kras.tp53_status = 0 ∨ rowS1Kras.tp53_status = 1) ∧
    (rowS1Kras.tp53_status = 0 →
      rowS1Kras.Hugo_Symbol_tp53 = "wild-type") ∧
    (rowS1Kras.tp53_status = 1 →
      ∃ m ∈ ([] : List StatusRow), rowS1Kras.Model = some m.Model ∧
        rowS1Kras.Hugo_Symbol_tp53 = m.Hugo_Symbol)) := by
  have hmem : rowS1Kras ∈ reconcile [sampleS1] [clinS1] [] [rasKras] := by
    have h : reconcile [sampleS1] [clinS1] [] [rasKras] = [rowS1Kras] := by
      decide
    rw [h]
    exact List.mem_singleton_self _
  exact ⟨hmem,
    c3_status_iff_match [sampleS1] [clinS1] [] [rasKras] rowS1Kras hmem⟩

/-- C10: frame property of reconciliation — every output row's score
fields (`sample_id`, `ras_score`, `tp53_score`, `ras_shuffle`,
`tp53_shuffle`) are identical to those of an originating input score row;
the pipeline only adds columns and never modifies a score value. -/
theorem c10_reconcile_frame (scores : List ScoreRow)
    (clinical : List ClinRow) (tp53_tbl ras_tbl : List StatusRow)
    (r : ReconciledRow)
    (hmem : r ∈ reconcile scores clinical tp53_tbl ras_tbl) :
    ∃ s ∈ scores, r.sample_id = s.sample_id ∧ r.ras_score = s.ras_score ∧
      r.tp53_score = s.tp53_score ∧ r.ras_shuffle = s.ras_shuffle ∧
      r.tp53_shuffle = s.tp53_shuffle := by
  simp only [reconcile, List.mem_map] at hmem
  obtain ⟨q, hq, rfl⟩ := hmem
  obtain ⟨hq2, -⟩ := mem_mergeRas hq
  obtain ⟨hq1, -⟩ := mem_mergeTp53 hq2
  obtain ⟨s, hs, h1, h2, h3, h4, h5⟩ := mem_mergeClinical hq1
  exact ⟨s, hs, h1, h2, h3, h4, h5⟩

/-- Witness for C10 at the single reconciled row of a concrete dataset. -/
theorem c10_reconcile_frame_witness :
    rowS1Kras ∈ reconcile [sampleS1, sampleS2] [clinS1] [] [rasKras] ∧
    ∃ s ∈ [sampleS1, sampleS2], rowS1Kras.sample_id = s.sample_id ∧
      rowS1Kras.ras_score = s.ras_score ∧
      rowS1Kras.tp53_score = s.tp53_score ∧
      rowS1Kras.ras_shuffle = s.ras_shuffle ∧
      rowS1Kras.tp53_shuffle = s.tp53_shuffle := by
  have hmem : rowS1Kras ∈ reconcile [sampleS1, sampleS2] [clinS1] []
      [rasKras] := by
    have h : reconcile [sampleS1, sampleS2] [clinS1] [] [rasKras] =
        [rowS1Kras,
         ⟨"S2", 0, 1, 1, 0, none, none, "wild-type", "wild-type",
          0, 0⟩] := by
      decide
    rw [h]
    exact List.mem_cons_self _ _
  exact ⟨hmem,
    c10_reconcile_frame [sampleS1, sampleS2] [clinS1] [] [rasKras]
      rowS1Kras hmem⟩

/-- C7 counterexample: with an all-zero Ras label vector but a two-class
TP53 label vector, the metrics loop aborts on the Ras iteration (which
runs first) and TP53 is never evaluated — even though the TP53
computation on its own would succeed. The degenerate Ras input is not
isolated to the Ras metric computation. -/
theorem c7_metrics_no_isolation_counterexample :
    evalAllPathways [degRow1, degRow2] = .error .degenerateInput ∧
    evalPathway ([degRow1, degRow2].map (·.tp53_status))
        ([degRow1, degRow2].map (·.tp53_score))
        ([degRow1, degRow2].map (·.tp53_shuffle)) ≠
      .error .degenerateInput := by
  constructor
  · rfl
  · intro h
    exact Except.noConfusion h

/-- C7 amended: each metric computation fails with `DegenerateInputError`
when its label vector contains only one class; but the two pathways are
computed sequentially in a single loop with no exception isolation, so a
failure of the Ras computation (the first iteration) propagates and
aborts the whole loop, TP53 included. -/
theorem c7_degenerate_labels_behavior :
    (∀ (labels : List Nat) (score shuff : List Rat),
      ((labels.all fun l => l == 0) = true ∨
        (labels.all fun l => l != 0) = true) →
      evalPathway labels score shuff = .error .degenerateInput) ∧
    (∀ rows : List ReconciledRow,
      evalPathway (rows.map (·.ras_status)) (rows.map (·.ras_score))
          (rows.map (·.ras_shuffle)) = .error .degenerateInput →
      evalAllPathways rows = .error .degenerateInput) := by
  constructor
  · intro labels score shuff hdeg
    have haur : aurocScore labels score = .error .degenerateInput := by
      unfold aurocScore
      rcases hdeg with h0 | h1
      · have hpos : (labels.zip score).filter (fun p => p.1 != 0) = [] := by
          rw [List.filter_eq_nil_iff]
          rintro ⟨a, b⟩ hab
          have ha : a ∈ labels := (List.of_mem_zip hab).1
          have ha0 : (a == 0) = true := List.all_eq_true.mp h0 a ha
          simp [eq_of_beq ha0]
        simp [hpos]
      · have hneg : (labels.zip score).filter (fun p => p.1 == 0) = [] := by
          rw [List.filter_eq_nil_iff]
          rintro ⟨a, b⟩ hab
          have ha : a ∈ labels := (List.of_mem_zip hab).1
          have ha1 : (a != 0) = true := List.all_eq_true.mp h1 a ha
          simpa using ha1
        simp [hneg]
    unfold evalPathway
    rw [haur]
    rfl
  · intro rows h
    unfold evalAllPathways
    rw [h]
    rfl

/-- Witness for C7 amended: an all-zero label vector aborts the pathway
computation, and an all-wild-type dataset aborts the whole loop. -/
theorem c7_degenerate_labels_behavior_witness :
    ((([0, 0] : List Nat).all fun l => l == 0) = true ∨
      (([0, 0] : List Nat).all fun l => l != 0) = true) ∧
    evalPathway [0, 0] [1, 2] [3, 4] = .error .degenerateInput ∧
    evalAllPathways [degRow1] = .error .degenerateInput :=
  ⟨Or.inl (by decide),
   c7_degenerate_labels_behavior.1 [0, 0] [1, 2] [3, 4]
     (Or.inl (by decide)),
   c7_degenerate_labels_behavior.2 [degRow1] (by rfl)⟩
